import Mathlib

/-!
Shallow embedding of the bosgo client library (repository bankrs/bosh).

The repository vendors several near-duplicate generations of the same Go
client.  The primary generation embedded here is the one under
`vendor/github.com/bankrs/bosgo` (req.go, service.go, developer.go, user.go,
app.go, types.go); the second generation of `req.go` (the unnamed source file
with the richer `Error` type, `X-Client-Id` support and a sanitised unmarshal
message) is embedded in the namespace `BosgoAlt`.

Modelling conventions:
  * JSON documents are the inductive `Json`; Go struct (un)marshalling is
    embedded as explicit encode / decode functions following the struct tags.
  * The `http.Client` handle and `context.Context` carried by `req` are not
    modelled; an HTTP exchange is an oracle `World : HttpCall → CallOutcome`
    deciding, for the request a send attempts, whether building the request
    fails (`http.NewRequest` error, no call issued), the transport fails
    (`hc.Do` error) or a response arrives.  Each send returns alongside its
    result the list of calls actually handed to `hc.Do`.
  * Go maps (headers, params) keep deterministic association-list or function
    models; iteration order over the literal header maps of this client is
    irrelevant because their keys are distinct.
  * Message texts produced by the Go standard library (json unmarshal type
    errors) are modelled by fixed strings; no claim depends on them.
-/

namespace Bosgo

/-- JSON values: the wire form of every request and response body. Numbers are
modelled as integers; the client marshals only integral numeric fields in the
operations treated here. -/
inductive Json where
  | null
  | bool (b : Bool)
  | num (n : Int)
  | str (s : String)
  | arr (elems : List Json)
  | obj (fields : List (String × Json))
deriving Repr

/-- Field lookup in a JSON object, first binding wins (Go objects decoded by
encoding/json keep one binding per key). -/
def lookupField : List (String × Json) → String → Option Json
  | [], _ => none
  | (k, v) :: rest, key => if k = key then some v else lookupField rest key

/-- Headers: the `headers` map of req.go (`map[string]string`), and the header
collection of an assembled request or of a response. -/
abbrev Headers := List (String × String)

/-- Header lookup as `http.Header.Get`: the stored value, or the empty string
when the key is absent. -/
def headerGet (h : Headers) (key : String) : String :=
  match h.lookup key with
  | some v => v
  | none => ""

/-- Header membership: `some value` when the key is present. -/
def headerLookup (h : Headers) (key : String) : Option String :=
  h.lookup key

/-- The effect of `Header.Set`: replace any existing binding for the key. -/
def headerSet (h : Headers) (key value : String) : Headers :=
  (h.filter (fun p => p.1 ≠ key)) ++ [(key, value)]

/-- Folding `Header.Set` over the entries of a req header map (the
`for k, v := range r.headers` loops of req.go). -/
def applyHeaders (hs : Headers) (init : Headers) : Headers :=
  hs.foldl (fun acc kv => headerSet acc kv.1 kv.2) init

/-- The `params` type of req.go: `map[string][]string`, modelled as a total
function defaulting to the empty list for absent keys. -/
def params := String → List String

/-- The empty params map every newReq starts from. -/
def emptyParams : params := fun _ => []

/-- params.Get of req.go: the first stored value, or the empty string when no
value is stored. -/
def params.Get (p : params) (key : String) : String :=
  match p key with
  | [] => ""
  | v :: _ => v

/-- params.Set of req.go: `p[key] = []string{value}`. -/
def params.Set (p : params) (key value : String) : params :=
  fun k => if k = key then [value] else p k

/-- HTTP methods used by the client. -/
inductive Method where
  | get
  | post
  | put
  | delete
deriving Repr, DecidableEq

/-- The request a send hands to `hc.Do`: method, target URL parts, assembled
headers and optional JSON body. -/
structure HttpCall where
  method : Method
  host : String
  path : String
  query : params
  headers : Headers
  body : Option Json

/-- Bodies of HTTP responses, as the decoding layers of the client observe
them.  `readFail` is an `ioutil.ReadAll` error; `invalid` keeps the raw bytes
(as a string) together with the unmarshal error message; `json` keeps the raw
bytes and the parsed document. -/
inductive BodyContent where
  | absent
  | readFail (msg : String)
  | invalid (raw msg : String)
  | json (raw : String) (j : Json)

/-- An HTTP response as the client consumes it.  `requestURL` is
`res.Request.URL.String()`, read by the second generation of responseError. -/
structure HttpResponse where
  statusCode : Nat
  status : String
  header : Headers
  body : BodyContent
  requestURL : String

/-- Outcome of attempting one HTTP exchange: `http.NewRequest` fails (nothing
is issued), `hc.Do` fails, or a response arrives. -/
inductive CallOutcome where
  | buildFail (msg : String)
  | netFail (msg : String)
  | response (res : HttpResponse)

/-- The transport oracle a send runs against. -/
abbrev World := HttpCall → CallOutcome

/-- ErrorItem of req.go (first generation): a detailed error code and
message. -/
structure ErrorItem where
  code : String
  message : String
deriving Repr, DecidableEq

/-- Error of req.go (first generation): an error response from a service. -/
structure Error where
  errors : List ErrorItem
  statusCode : Nat
  status : String
  header : Headers
  requestID : String
deriving Repr, DecidableEq

/-- Unmarshalling of one JSON value into a Go string field: absent and null
leave the zero value, a string is taken verbatim, any other shape is an
unmarshal type error. -/
def decodeStrField (fields : List (String × Json)) (key : String) : Option String :=
  match lookupField fields key with
  | none => some ""
  | some Json.null => some ""
  | some (Json.str s) => some s
  | some _ => none

/-- Unmarshalling into a Go bool field. -/
def decodeBoolField (fields : List (String × Json)) (key : String) : Option Bool :=
  match lookupField fields key with
  | none => some false
  | some Json.null => some false
  | some (Json.bool b) => some b
  | some _ => none

/-- Unmarshalling into a Go int64 field. -/
def decodeIntField (fields : List (String × Json)) (key : String) : Option Int :=
  match lookupField fields key with
  | none => some 0
  | some Json.null => some 0
  | some (Json.num n) => some n
  | some _ => none

/-- Unmarshalling into a Go uint field: a negative number is an unmarshal
error. -/
def decodeUintField (fields : List (String × Json)) (key : String) : Option Nat :=
  match lookupField fields key with
  | none => some 0
  | some Json.null => some 0
  | some (Json.num n) => if 0 ≤ n then some n.toNat else none
  | some _ => none

/-- Unmarshalling into a Go pointer field: absent and null give nil, any other
value is decoded by the element decoder. -/
def decodeOptField {α : Type} (dec : Json → Option α)
    (fields : List (String × Json)) (key : String) : Option (Option α) :=
  match lookupField fields key with
  | none => some none
  | some Json.null => some none
  | some j => (dec j).map some

/-- Unmarshalling into a Go slice field: absent and null give the empty slice,
an array is decoded elementwise. -/
def decodeListField {α : Type} (dec : Json → Option α)
    (fields : List (String × Json)) (key : String) : Option (List α) :=
  match lookupField fields key with
  | none => some []
  | some Json.null => some []
  | some (Json.arr xs) => xs.mapM dec
  | some _ => none

/-- Unmarshalling one JSON value into a Go string. -/
def decodeStr : Json → Option String
  | Json.str s => some s
  | _ => none

/-- Unmarshalling one JSON value into a `[]string`. -/
def decodeStrList : Json → Option (List String)
  | Json.null => some []
  | Json.arr xs => xs.mapM decodeStr
  | _ => none

/-- Unmarshalling into a `[]string` field. -/
def decodeStrListField (fields : List (String × Json)) (key : String) :
    Option (List String) :=
  decodeListField decodeStr fields key

/-- Unmarshalling one ErrorItem of the first generation. -/
def decodeErrorItem : Json → Option ErrorItem
  | Json.null => some { code := "", message := "" }
  | Json.obj fields => do
      let code ← decodeStrField fields "code"
      let message ← decodeStrField fields "message"
      pure { code := code, message := message }
  | _ => none

/-- Unmarshalling a response body into the Error struct of the first
generation and projecting its `errors` field, as `json.Unmarshal(body, &serr)`
followed by `serr.Errors` does. -/
def decodeErrors (j : Json) : Option (List ErrorItem) :=
  match j with
  | Json.null => some []
  | Json.obj fields => decodeListField decodeErrorItem fields "errors"
  | _ => none

/-- Modelled message of a Go json unmarshal type error over the given raw
bytes; the exact standard library text is not reproduced. -/
def unmarshalTypeErrMsg (raw : String) : String :=
  "json: cannot unmarshal " ++ raw

/-- responseError of req.go (first generation): nil for a 2xx status, and
otherwise an Error carrying the status code, status line, headers and the
X-Request-Id header, with error items read from the body when possible. -/
def responseError : Option HttpResponse → Option Error
  | none => some { errors := [], statusCode := 0, status := "no response found",
                   header := [], requestID := "" }
  | some res =>
    if res.statusCode / 100 = 2 then none
    else
      let rerr : Error :=
        { errors := [], statusCode := res.statusCode, status := res.status,
          header := res.header, requestID := headerGet res.header "X-Request-Id" }
      match res.body with
      | BodyContent.absent => some rerr
      | BodyContent.readFail msg =>
          some { rerr with errors := [{ code := "unable_to_read_error_response", message := msg }] }
      | BodyContent.invalid _ msg =>
          some { rerr with errors := [{ code := "unable_to_unmarshal_error_response", message := msg }] }
      | BodyContent.json raw j =>
          match decodeErrors j with
          | none => some { rerr with errors :=
              [{ code := "unable_to_unmarshal_error_response", message := unmarshalTypeErrMsg raw }] }
          | some items => some { rerr with errors := rerr.errors ++ items }

end Bosgo

namespace BosgoAlt

open Bosgo (Json Headers headerGet lookupField HttpResponse BodyContent
  decodeStrField decodeListField decodeStrListField)

/-- ErrorItem of the second vendored generation of req.go: code, message and
an optional payload map. -/
structure ErrorItem where
  code : String
  message : String
  payload : List (String × List String)
deriving Repr, DecidableEq

/-- Error of the second vendored generation: as the first, plus the request
URL. -/
structure Error where
  errors : List ErrorItem
  statusCode : Nat
  status : String
  header : Headers
  requestID : String
  url : String
deriving Repr, DecidableEq

/-- Unmarshalling into a `map[string][]string` payload field. -/
def decodePayloadField (fields : List (String × Json)) (key : String) :
    Option (List (String × List String)) :=
  match lookupField fields key with
  | none => some []
  | some Json.null => some []
  | some (Json.obj kvs) =>
      kvs.mapM (fun kv => (Bosgo.decodeStrList kv.2).map (fun vs => (kv.1, vs)))
  | some _ => none

/-- Unmarshalling one ErrorItem of the second generation. -/
def decodeErrorItem : Json → Option ErrorItem
  | Json.null => some { code := "", message := "", payload := [] }
  | Json.obj fields => do
      let code ← decodeStrField fields "code"
      let message ← decodeStrField fields "message"
      let payload ← decodePayloadField fields "payload"
      pure { code := code, message := message, payload := payload }
  | _ => none

/-- Unmarshalling the body into the Error struct of the second generation and
projecting its errors field. -/
def decodeErrors (j : Json) : Option (List ErrorItem) :=
  match j with
  | Json.null => some []
  | Json.obj fields => decodeListField decodeErrorItem fields "errors"
  | _ => none

/-- The body sanitisation of the second generation: the bytes up to the first
NUL, carriage returns and newlines replaced by spaces. -/
def sanitizeBody (s : String) : String :=
  String.map (fun c => if c = '\r' ∨ c = '\n' then ' ' else c)
    (s.takeWhile (fun c => c ≠ Char.ofNat 0))

/-- responseError of the second vendored generation of req.go: the same
success classification as the first generation; a non-2xx response yields an
Error carrying the status code, status line, headers, X-Request-Id and the
request URL, with a sanitised `received ...` message when the body does not
unmarshal. -/
def responseError : Option HttpResponse → Option Error
  | none => some { errors := [], statusCode := 0, status := "no response found",
                   header := [], requestID := "", url := "" }
  | some res =>
    if res.statusCode / 100 = 2 then none
    else
      let rerr : Error :=
        { errors := [], statusCode := res.statusCode, status := res.status,
          header := res.header, requestID := headerGet res.header "X-Request-Id",
          url := res.requestURL }
      match res.body with
      | BodyContent.absent => some rerr
      | BodyContent.readFail msg =>
          some { rerr with errors := [{ code := "unable_to_read_error_response", message := msg, payload := [] }] }
      | BodyContent.invalid raw _ =>
          some { rerr with errors :=
            [{ code := "unable_to_unmarshal_error_response",
               message := "received " ++ sanitizeBody raw, payload := [] }] }
      | BodyContent.json raw j =>
          match decodeErrors j with
          | none => some { rerr with errors :=
              [{ code := "unable_to_unmarshal_error_response",
                 message := "received " ++ sanitizeBody raw, payload := [] }] }
          | some items => some { rerr with errors := rerr.errors ++ items }

end BosgoAlt

namespace Bosgo

/-- The req type of req.go: one API request under construction.  The transport
handle `hc` and the `ctx` field are runtime objects and are not modelled.
`clientID` is the extra field of the second generation of req.go (set by the
ClientID builder methods); `environment` is the extra field set by the
newReq of service.go.  Neither influences the first generation request
assembly embedded below. -/
structure req where
  addr : String
  path : String
  par : params
  headers : Headers
  clientID : String := ""
  environment : String := ""

/-- Headers of the assembled HTTP request: Content-Type for JSON bodies, the
fixed x-environment header, then every entry of the req header map applied
with Set semantics, as the bodies of get, postJSON, putJSON and delete do. -/
def req.assembledHeaders (r : req) (withJSONBody : Bool) : Headers :=
  applyHeaders r.headers
    (if withJSONBody then
       [("Content-Type", "application/json"), ("x-environment", "sandbox")]
     else [("x-environment", "sandbox")])

/-- The request that req.get hands to hc.Do. -/
def req.getCall (r : req) : HttpCall :=
  { method := Method.get, host := r.addr, path := r.path, query := r.par,
    headers := r.assembledHeaders false, body := none }

/-- The request that req.postJSON hands to hc.Do. -/
def req.postCall (r : req) (data : Option Json) : HttpCall :=
  { method := Method.post, host := r.addr, path := r.path, query := r.par,
    headers := r.assembledHeaders true, body := data }

/-- The request that req.putJSON hands to hc.Do. -/
def req.putCall (r : req) (data : Option Json) : HttpCall :=
  { method := Method.put, host := r.addr, path := r.path, query := r.par,
    headers := r.assembledHeaders true, body := data }

/-- The request that req.delete hands to hc.Do. -/
def req.deleteCall (r : req) : HttpCall :=
  { method := Method.delete, host := r.addr, path := r.path, query := r.par,
    headers := r.assembledHeaders false, body := none }

/-- Errors a send can surface: a request build error, a transport error, the
Error of responseError, a failure decoding a success body (the wrap and
decodeError paths, whose message content no claim depends on), or a plain
fmt.Errorf message. -/
inductive ClientError where
  | build (msg : String)
  | net (msg : String)
  | api (e : Error)
  | decodeFailure
  | message (msg : String)
deriving Repr, DecidableEq

/-- Result of one send: the returned value or error, together with the list of
requests actually handed to hc.Do. -/
structure SendResult (α : Type) where
  result : Except ClientError α
  calls : List HttpCall

/-- One HTTP exchange as get, postJSON, putJSON and delete of req.go perform
it: build the request (an error returns immediately, nothing is issued), hand
it to hc.Do (an error returns immediately), then classify the response with
responseError.  There is no loop: the call list never exceeds one element. -/
def sendHttp (c : HttpCall) (w : World) : SendResult HttpResponse :=
  match w c with
  | CallOutcome.buildFail msg => { result := Except.error (ClientError.build msg), calls := [] }
  | CallOutcome.netFail msg => { result := Except.error (ClientError.net msg), calls := [c] }
  | CallOutcome.response res =>
    { calls := [c],
      result :=
        match responseError (some res) with
        | some e => Except.error (ClientError.api e)
        | none => Except.ok res }

/-- req.get of req.go. -/
def req.get (r : req) (w : World) : SendResult HttpResponse :=
  sendHttp r.getCall w

/-- req.postJSON of req.go. -/
def req.postJSON (r : req) (data : Option Json) (w : World) : SendResult HttpResponse :=
  sendHttp (r.postCall data) w

/-- req.putJSON of req.go. -/
def req.putJSON (r : req) (data : Option Json) (w : World) : SendResult HttpResponse :=
  sendHttp (r.putCall data) w

/-- req.delete of req.go. -/
def req.delete (r : req) (w : World) : SendResult HttpResponse :=
  sendHttp r.deleteCall w

/-- Decoding the body of a successful response into a typed value, as
`json.NewDecoder(res.Body).Decode` at the end of every Send: a success body
that is not valid JSON for the target type is a decode error. -/
def SendResult.decodeBody {α : Type} (sr : SendResult HttpResponse)
    (dec : Json → Option α) : SendResult α :=
  { calls := sr.calls,
    result :=
      match sr.result with
      | Except.error e => Except.error e
      | Except.ok res =>
        match res.body with
        | BodyContent.json _ j =>
          match dec j with
          | some a => Except.ok a
          | none => Except.error ClientError.decodeFailure
        | _ => Except.error ClientError.decodeFailure }

/-- Version of service.go. -/
def Version : String := "0.1"

/-- DefaultUserAgent of service.go. -/
def DefaultUserAgent : String := "bosgo-bankrs-os-client/" ++ Version

/-- The apiV1 path prefix of service.go. -/
def apiV1 : String := "/v1"

/-- user.go references a constant named UserAgent whose defining file is not
among the repository sources; every claim below is independent of its value
and it is modelled as the default agent string. -/
def UserAgent : String := DefaultUserAgent

/-- The base Client of service.go (hc omitted). -/
structure Client where
  addr : String
  ua : String := ""
  environment : String := ""

/-- Client.userAgent of service.go. -/
def Client.userAgent (c : Client) : String :=
  if c.ua = "" then DefaultUserAgent else DefaultUserAgent ++ " " ++ c.ua

/-- Client.newReq of service.go. -/
def Client.newReq (c : Client) (path : String) : req :=
  { addr := c.addr, path := path, par := emptyParams,
    headers := [("User-Agent", c.userAgent)],
    environment := c.environment }

/-- DevClient of developer.go (hc and the service wrappers omitted as
runtime plumbing; the services are modelled as constructors below). -/
structure DevClient where
  addr : String
  token : String
  ua : String := ""
  environment : String := ""

/-- NewDevClient of developer.go. -/
def NewDevClient (addr token : String) : DevClient :=
  { addr := addr, token := token }

/-- DevClient.userAgent of developer.go. -/
def DevClient.userAgent (d : DevClient) : String :=
  if d.ua = "" then DefaultUserAgent else DefaultUserAgent ++ " " ++ d.ua

/-- DevClient.SessionToken of developer.go. -/
def DevClient.SessionToken (d : DevClient) : String :=
  d.token

/-- DevClient.newReq of developer.go. -/
def DevClient.newReq (d : DevClient) (path : String) : req :=
  { addr := d.addr, path := path, par := emptyParams,
    headers := [("User-Agent", d.userAgent), ("x-token", d.token)] }

/-- UserClient of user.go (hc and the service wrapper fields omitted). -/
structure UserClient where
  addr : String
  token : String
  applicationID : String
  ua : String := ""

/-- NewUserClient of user.go. -/
def NewUserClient (addr token applicationID : String) : UserClient :=
  { addr := addr, token := token, applicationID := applicationID }

/-- UserClient.userAgent of user.go. -/
def UserClient.userAgent (u : UserClient) : String :=
  if u.ua = "" then UserAgent else UserAgent ++ " " ++ u.ua

/-- UserClient.SessionToken of user.go. -/
def UserClient.SessionToken (u : UserClient) : String :=
  u.token

/-- UserClient.newReq of user.go. -/
def UserClient.newReq (u : UserClient) (path : String) : req :=
  { addr := u.addr, path := path, par := emptyParams,
    headers := [("User-Agent", u.userAgent), ("x-token", u.token),
                ("x-application-id", u.applicationID)] }

/-- DeveloperCredentials of types.go. -/
structure DeveloperCredentials where
  email : String
  password : String
deriving Repr, DecidableEq

/-- JSON marshalling of DeveloperCredentials (tags email, password). -/
def encodeDeveloperCredentials (d : DeveloperCredentials) : Json :=
  Json.obj [("email", Json.str d.email), ("password", Json.str d.password)]

/-- The sessionToken response struct of service.go. -/
structure sessionToken where
  token : String
deriving Repr, DecidableEq

/-- Unmarshalling a login response body into sessionToken (tag token). -/
def decodeSessionToken : Json → Option sessionToken
  | Json.null => some { token := "" }
  | Json.obj fields => (decodeStrField fields "token").map (fun t => { token := t })
  | _ => none

/-- DeveloperLoginReq of service.go (ctx omitted). -/
structure DeveloperLoginReq where
  req : req
  client : Client
  data : DeveloperCredentials

/-- Client.Login of service.go. -/
def Client.Login (c : Client) (email password : String) : DeveloperLoginReq :=
  { client := c, req := c.newReq (apiV1 ++ "/developers/login"),
    data := { email := email, password := password } }

/-- DeveloperLoginReq.ClientID of service.go. -/
def DeveloperLoginReq.ClientID (r : DeveloperLoginReq) (id : String) : DeveloperLoginReq :=
  { r with req := { r.req with clientID := id } }

/-- The request DeveloperLoginReq.Send posts. -/
def DeveloperLoginReq.sendCall (r : DeveloperLoginReq) : HttpCall :=
  r.req.postCall (some (encodeDeveloperCredentials r.data))

/-- DeveloperLoginReq.Send of service.go: post the credentials, decode the
session token and build a DevClient carrying it. -/
def DeveloperLoginReq.Send (r : DeveloperLoginReq) (w : World) : SendResult DevClient :=
  let sr := (r.req.postJSON (some (encodeDeveloperCredentials r.data)) w).decodeBody decodeSessionToken
  { calls := sr.calls,
    result := sr.result.map (fun t =>
      { NewDevClient r.client.addr t.token with
          ua := r.client.ua, environment := r.client.environment }) }

/-- developerPasswordReset of service.go: note the json tag of the Password
field is the string email. -/
structure developerPasswordReset where
  password : String
  token : String
deriving Repr, DecidableEq

/-- JSON marshalling of developerPasswordReset: the Password field carries the
tag email, the Token field the tag token. -/
def encodeDeveloperPasswordReset (d : developerPasswordReset) : Json :=
  Json.obj [("email", Json.str d.password), ("token", Json.str d.token)]

/-- ResetPasswordReq of service.go (ctx omitted). -/
structure ResetPasswordReq where
  req : req
  data : developerPasswordReset

/-- Client.ResetPassword of service.go. -/
def Client.ResetPassword (c : Client) (password token : String) : ResetPasswordReq :=
  { req := c.newReq (apiV1 ++ "/developers/reset_password"),
    data := { password := password, token := token } }

/-- The request ResetPasswordReq.Send posts. -/
def ResetPasswordReq.sendCall (r : ResetPasswordReq) : HttpCall :=
  r.req.postCall (some (encodeDeveloperPasswordReset r.data))

/-- ResetPasswordReq.Send of service.go. -/
def ResetPasswordReq.Send (r : ResetPasswordReq) (w : World) : SendResult Unit :=
  let sr := r.req.postJSON (some (encodeDeveloperPasswordReset r.data)) w
  { calls := sr.calls, result := sr.result.map (fun _ => ()) }

end Bosgo

namespace Bosgo

/-- ChallengeAnswer of user.go and types.go: one answer to an authorisation
challenge. -/
structure ChallengeAnswer where
  id : String
  value : String
  store : Bool
deriving Repr, DecidableEq

/-- JSON marshalling of ChallengeAnswer (tags id, value, store). -/
def encodeChallengeAnswer (a : ChallengeAnswer) : Json :=
  Json.obj [("id", Json.str a.id), ("value", Json.str a.value),
            ("store", Json.bool a.store)]

/-- JSON marshalling of a ChallengeAnswerList. -/
def encodeChallengeAnswerList (answers : List ChallengeAnswer) : Json :=
  Json.arr (answers.map encodeChallengeAnswer)

/-- BankAccess of user.go. -/
structure BankAccess where
  id : Int
  bankID : Int
  name : String
  isPinSaved : Bool
  enabled : Bool
deriving Repr, DecidableEq

/-- Unmarshalling one BankAccess (tags id, bank_id, name, is_pin_saved,
enabled). -/
def decodeBankAccess : Json → Option BankAccess
  | Json.null => some { id := 0, bankID := 0, name := "", isPinSaved := false, enabled := false }
  | Json.obj fields => do
      let id ← decodeIntField fields "id"
      let bankID ← decodeIntField fields "bank_id"
      let name ← decodeStrField fields "name"
      let isPinSaved ← decodeBoolField fields "is_pin_saved"
      let enabled ← decodeBoolField fields "enabled"
      pure { id := id, bankID := bankID, name := name,
             isPinSaved := isPinSaved, enabled := enabled }
  | _ => none

/-- Unmarshalling the body of a ListAccesses response, a top-level array of
BankAccess records decoded into page.Accesses. -/
def decodeBankAccessList : Json → Option (List BankAccess)
  | Json.null => some []
  | Json.arr xs => xs.mapM decodeBankAccess
  | _ => none

/-- BankAccessPage of user.go. -/
structure BankAccessPage where
  accesses : List BankAccess
deriving Repr, DecidableEq

/-- Job of user.go: a server-side task identified by its URI. -/
structure Job where
  uri : String
deriving Repr, DecidableEq

/-- Unmarshalling a Job (tag uri). -/
def decodeJob : Json → Option Job
  | Json.null => some { uri := "" }
  | Json.obj fields => (decodeStrField fields "uri").map (fun u => { uri := u })
  | _ => none

/-- Problem of user.go. -/
structure Problem where
  domain : String
  code : String
  message : String
  info : List (String × String)
deriving Repr, DecidableEq

/-- Unmarshalling a `map[string]string` field. -/
def decodeStrMapField (fields : List (String × Json)) (key : String) :
    Option (List (String × String)) :=
  match lookupField fields key with
  | none => some []
  | some Json.null => some []
  | some (Json.obj kvs) => kvs.mapM (fun kv => (decodeStr kv.2).map (fun v => (kv.1, v)))
  | some _ => none

/-- Unmarshalling one Problem (tags domain, code, message, info). -/
def decodeProblem : Json → Option Problem
  | Json.null => some { domain := "", code := "", message := "", info := [] }
  | Json.obj fields => do
      let domain ← decodeStrField fields "domain"
      let code ← decodeStrField fields "code"
      let message ← decodeStrField fields "message"
      let info ← decodeStrMapField fields "info"
      pure { domain := domain, code := code, message := message, info := info }
  | _ => none

/-- ChallengeField of user.go. -/
structure ChallengeField where
  id : String
  description : String
  type : String
  previous : String
  stored : Bool
  reset : Bool
  secure : Bool
  optional : Bool
  unStoreable : Bool
  methods : List String
deriving Repr, DecidableEq

/-- Unmarshalling one ChallengeField. -/
def decodeChallengeField : Json → Option ChallengeField
  | Json.null => some { id := "", description := "", type := "", previous := "",
                        stored := false, reset := false, secure := false,
                        optional := false, unStoreable := false, methods := [] }
  | Json.obj fields => do
      let id ← decodeStrField fields "id"
      let description ← decodeStrField fields "description"
      let type ← decodeStrField fields "type"
      let previous ← decodeStrField fields "previous"
      let stored ← decodeBoolField fields "stored"
      let reset ← decodeBoolField fields "reset"
      let secure ← decodeBoolField fields "secure"
      let optional ← decodeBoolField fields "optional"
      let unStoreable ← decodeBoolField fields "unstoreable"
      let methods ← decodeStrListField fields "methods"
      pure { id := id, description := description, type := type, previous := previous,
             stored := stored, reset := reset, secure := secure, optional := optional,
             unStoreable := unStoreable, methods := methods }
  | _ => none

/-- Challenge of user.go. -/
structure Challenge where
  canContinue : Bool
  maxSteps : Nat
  curStep : Nat
  nextChallenges : List ChallengeField
  lastProblems : List Problem
  hint : String
deriving Repr, DecidableEq

/-- Unmarshalling one Challenge (tags cancontinue, maxsteps, curstep,
nextchallenges, lastproblems, hint). -/
def decodeChallenge : Json → Option Challenge
  | Json.null => some { canContinue := false, maxSteps := 0, curStep := 0,
                        nextChallenges := [], lastProblems := [], hint := "" }
  | Json.obj fields => do
      let canContinue ← decodeBoolField fields "cancontinue"
      let maxSteps ← decodeUintField fields "maxsteps"
      let curStep ← decodeUintField fields "curstep"
      let nextChallenges ← decodeListField decodeChallengeField fields "nextchallenges"
      let lastProblems ← decodeListField decodeProblem fields "lastproblems"
      let hint ← decodeStrField fields "hint"
      pure { canContinue := canContinue, maxSteps := maxSteps, curStep := curStep,
             nextChallenges := nextChallenges, lastProblems := lastProblems, hint := hint }
  | _ => none

/-- APIError of user.go: an error code with a free-form payload object. -/
structure APIError where
  code : String
  payload : List (String × Json)
deriving Repr

/-- Unmarshalling one APIError (tags code, payload). -/
def decodeAPIError : Json → Option APIError
  | Json.null => some { code := "", payload := [] }
  | Json.obj fields => do
      let code ← decodeStrField fields "code"
      let payload ←
        match lookupField fields "payload" with
        | none => some []
        | some Json.null => some []
        | some (Json.obj kvs) => some kvs
        | some _ => none
      pure { code := code, payload := payload }
  | _ => none

/-- AccountResponse of user.go. -/
structure AccountResponse where
  id : Int
  name : String
  supported : Bool
  number : String
  iban : String
deriving Repr, DecidableEq

/-- Unmarshalling one AccountResponse (tags id, name, supported, number,
iban). -/
def decodeAccountResponse : Json → Option AccountResponse
  | Json.null => some { id := 0, name := "", supported := false, number := "", iban := "" }
  | Json.obj fields => do
      let id ← decodeIntField fields "id"
      let name ← decodeStrField fields "name"
      let supported ← decodeBoolField fields "supported"
      let number ← decodeStrField fields "number"
      let iban ← decodeStrField fields "iban"
      pure { id := id, name := name, supported := supported, number := number, iban := iban }
  | _ => none

/-- AccessResponse of user.go. -/
structure AccessResponse where
  id : Int
  bankID : Int
  name : String
  accounts : List AccountResponse
deriving Repr, DecidableEq

/-- Unmarshalling one AccessResponse (tags id, bank_id, name, accounts). -/
def decodeAccessResponse : Json → Option AccessResponse
  | Json.null => some { id := 0, bankID := 0, name := "", accounts := [] }
  | Json.obj fields => do
      let id ← decodeIntField fields "id"
      let bankID ← decodeIntField fields "bank_id"
      let name ← decodeStrField fields "name"
      let accounts ← decodeListField decodeAccountResponse fields "accounts"
      pure { id := id, bankID := bankID, name := name, accounts := accounts }
  | _ => none

/-- JobStatus of user.go: the polled state of an asynchronous job. -/
structure JobStatus where
  finished : Bool
  stage : String
  challenge : Option Challenge
  uri : String
  errors : List APIError
  access : Option AccessResponse
deriving Repr

/-- Unmarshalling one JobStatus (tags finished, stage, challenge, uri, errors,
access). -/
def decodeJobStatus : Json → Option JobStatus
  | Json.null => some { finished := false, stage := "", challenge := none,
                        uri := "", errors := [], access := none }
  | Json.obj fields => do
      let finished ← decodeBoolField fields "finished"
      let stage ← decodeStrField fields "stage"
      let challenge ← decodeOptField decodeChallenge fields "challenge"
      let uri ← decodeStrField fields "uri"
      let errors ← decodeListField decodeAPIError fields "errors"
      let access ← decodeOptField decodeAccessResponse fields "access"
      pure { finished := finished, stage := stage, challenge := challenge,
             uri := uri, errors := errors, access := access }
  | _ => none

/-- AccessesService of user.go. -/
structure AccessesService where
  client : UserClient

/-- NewAccessesService of user.go; the Accesses field a NewUserClient carries. -/
def NewAccessesService (u : UserClient) : AccessesService :=
  { client := u }

/-- ListAccessesReq of user.go (ctx omitted). -/
structure ListAccessesReq where
  req : req

/-- AccessesService.List of user.go. -/
def AccessesService.List (a : AccessesService) : ListAccessesReq :=
  { req := a.client.newReq (apiV1 ++ "/accesses") }

/-- ListAccessesReq.Send of user.go: get, then decode the body array into the
Accesses field of a BankAccessPage. -/
def ListAccessesReq.Send (r : ListAccessesReq) (w : World) : SendResult BankAccessPage :=
  let sr := (r.req.get w).decodeBody decodeBankAccessList
  { calls := sr.calls, result := sr.result.map (fun l => { accesses := l }) }

/-- AddAccessReq of user.go (ctx omitted). -/
structure AddAccessReq where
  req : req
  providerID : String
  answers : List ChallengeAnswer

/-- AccessesService.Add of user.go. -/
def AccessesService.Add (a : AccessesService) (providerID : String) : AddAccessReq :=
  { req := a.client.newReq (apiV1 ++ "/accesses"),
    providerID := providerID, answers := [] }

/-- AddAccessReq.ChallengeAnswer of user.go: append one answer. -/
def AddAccessReq.ChallengeAnswer (r : AddAccessReq) (answer : ChallengeAnswer) : AddAccessReq :=
  { r with answers := r.answers ++ [answer] }

/-- The anonymous body struct AddAccessReq.Send marshals (tags provider_id,
challenge_answers). -/
def AddAccessReq.sendBody (r : AddAccessReq) : Json :=
  Json.obj [("provider_id", Json.str r.providerID),
            ("challenge_answers", encodeChallengeAnswerList r.answers)]

/-- The request AddAccessReq.Send posts. -/
def AddAccessReq.sendCall (r : AddAccessReq) : HttpCall :=
  r.req.postCall (some r.sendBody)

/-- AddAccessReq.Send of user.go: post the body, decode the response into a
Job. -/
def AddAccessReq.Send (r : AddAccessReq) (w : World) : SendResult Job :=
  (r.req.postJSON (some r.sendBody) w).decodeBody decodeJob

/-- JobsService of user.go. -/
structure JobsService where
  client : UserClient

/-- NewJobsService of user.go; the Jobs field a NewUserClient carries. -/
def NewJobsService (u : UserClient) : JobsService :=
  { client := u }

/-- JobGetReq of user.go (ctx omitted). -/
structure JobGetReq where
  req : req

/-- JobsService.Get of user.go: the job URI appended to the literal /v1. -/
def JobsService.Get (j : JobsService) (uri : String) : JobGetReq :=
  { req := j.client.newReq ("/v1" ++ uri) }

/-- JobGetReq.Send of user.go: get, decode the body into a JobStatus. -/
def JobGetReq.Send (r : JobGetReq) (w : World) : SendResult JobStatus :=
  (r.req.get w).decodeBody decodeJobStatus

/-- JobAnswerReq of user.go (ctx omitted). -/
structure JobAnswerReq where
  req : req
  answers : List ChallengeAnswer

/-- JobsService.Answer of user.go. -/
def JobsService.Answer (j : JobsService) (uri : String) : JobAnswerReq :=
  { req := j.client.newReq ("/v1" ++ uri), answers := [] }

/-- JobAnswerReq.ChallengeAnswer of user.go: append one answer. -/
def JobAnswerReq.ChallengeAnswer (r : JobAnswerReq) (answer : ChallengeAnswer) : JobAnswerReq :=
  { r with answers := r.answers ++ [answer] }

/-- The anonymous body struct JobAnswerReq.Send marshals (tag
challenge_answers). -/
def JobAnswerReq.sendBody (r : JobAnswerReq) : Json :=
  Json.obj [("challenge_answers", encodeChallengeAnswerList r.answers)]

/-- The request JobAnswerReq.Send puts. -/
def JobAnswerReq.sendCall (r : JobAnswerReq) : HttpCall :=
  r.req.putCall (some r.sendBody)

/-- JobAnswerReq.Send of user.go: put the answers body. -/
def JobAnswerReq.Send (r : JobAnswerReq) (w : World) : SendResult Unit :=
  let sr := r.req.putJSON (some r.sendBody) w
  { calls := sr.calls, result := sr.result.map (fun _ => ()) }

/-- PageParams of developer.go and app.go. -/
structure PageParams where
  cursor : String
  limit : Int
deriving Repr, DecidableEq

/-- JSON marshalling of PageParams (tags cursor, limit). -/
def encodePageParams (p : PageParams) : Json :=
  Json.obj [("cursor", Json.str p.cursor), ("limit", Json.num p.limit)]

/-- UserListPage of types.go. -/
structure UserListPage where
  users : List String
  nextCursor : String
deriving Repr, DecidableEq

/-- Unmarshalling one UserListPage (tags users, next). -/
def decodeUserListPage : Json → Option UserListPage
  | Json.null => some { users := [], nextCursor := "" }
  | Json.obj fields => do
      let users ← decodeStrListField fields "users"
      let nextCursor ← decodeStrField fields "next"
      pure { users := users, nextCursor := nextCursor }
  | _ => none

/-- ApplicationsService of developer.go. -/
structure ApplicationsService where
  client : DevClient

/-- ListDevUsersReq as developer.go and app.go both define it (ctx omitted);
the Send bodies of the two files are identical, so a single embedding covers
both. -/
structure ListDevUsersReq where
  req : req
  data : PageParams

/-- ApplicationsService.ListUsers of developer.go: a developer-session request
that additionally sets the x-application-id header on the req header map. -/
def ApplicationsService.ListUsers (d : ApplicationsService) (applicationID : String) :
    ListDevUsersReq :=
  let r := d.client.newReq (apiV1 ++ "/developers/users")
  { req := { r with headers := headerSet r.headers "x-application-id" applicationID },
    data := { cursor := "", limit := 0 } }

/-- ListDevUsersReq.Cursor of developer.go and app.go. -/
def ListDevUsersReq.Cursor (r : ListDevUsersReq) (cursor : String) : ListDevUsersReq :=
  { r with data := { r.data with cursor := cursor } }

/-- ListDevUsersReq.Limit of developer.go and app.go. -/
def ListDevUsersReq.Limit (r : ListDevUsersReq) (v : Int) : ListDevUsersReq :=
  { r with data := { r.data with limit := v } }

/-- ListDevUsersReq.Send of developer.go and app.go: a negative limit is
rejected before any HTTP exchange, a zero limit issues a body-less get, and a
positive limit posts the page parameters. -/
def ListDevUsersReq.Send (r : ListDevUsersReq) (w : World) : SendResult UserListPage :=
  if r.data.limit < 0 then
    { result := Except.error (ClientError.message "limit must be non-negative"), calls := [] }
  else
    let sr := if r.data.limit = 0 then r.req.get w
              else r.req.postJSON (some (encodePageParams r.data)) w
    sr.decodeBody decodeUserListPage

end Bosgo

namespace Bosgo

theorem addAccess_foldl (r : AddAccessReq) (ans : List ChallengeAnswer) :
    (ans.foldl AddAccessReq.ChallengeAnswer r).answers = r.answers ++ ans ∧
    (ans.foldl AddAccessReq.ChallengeAnswer r).req = r.req ∧
    (ans.foldl AddAccessReq.ChallengeAnswer r).providerID = r.providerID := by
  induction ans generalizing r with
  | nil => simp
  | cons a rest ih =>
    have h := ih (r.ChallengeAnswer a)
    simp only [List.foldl_cons, AddAccessReq.ChallengeAnswer] at h ⊢
    rcases h with ⟨h1, h2, h3⟩
    refine ⟨?_, h2, h3⟩
    rw [h1]
    simp

theorem jobAnswer_foldl (r : JobAnswerReq) (ans : List ChallengeAnswer) :
    (ans.foldl JobAnswerReq.ChallengeAnswer r).answers = r.answers ++ ans ∧
    (ans.foldl JobAnswerReq.ChallengeAnswer r).req = r.req := by
  induction ans generalizing r with
  | nil => simp
  | cons a rest ih =>
    have h := ih (r.ChallengeAnswer a)
    simp only [List.foldl_cons, JobAnswerReq.ChallengeAnswer] at h ⊢
    rcases h with ⟨h1, h2⟩
    refine ⟨?_, h2⟩
    rw [h1]
    simp

theorem responseError_nonsuccess (res : HttpResponse) (h : ¬ res.statusCode / 100 = 2) :
    ∃ items, responseError (some res) =
      some { errors := items, statusCode := res.statusCode, status := res.status,
             header := res.header, requestID := headerGet res.header "X-Request-Id" } := by
  simp only [responseError]
  rw [if_neg h]
  cases res.body with
  | absent => exact ⟨[], rfl⟩
  | readFail msg => exact ⟨_, rfl⟩
  | invalid raw msg => exact ⟨_, rfl⟩
  | json raw j =>
    cases hd : decodeErrors j with
    | none =>
      exact ⟨[{ code := "unable_to_unmarshal_error_response",
                message := unmarshalTypeErrMsg raw }], by simp only [hd]⟩
    | some items => exact ⟨items, by simp only [hd, List.nil_append]⟩

theorem responseErrorAlt_nonsuccess (res : HttpResponse) (h : ¬ res.statusCode / 100 = 2) :
    ∃ items, BosgoAlt.responseError (some res) =
      some { errors := items, statusCode := res.statusCode, status := res.status,
             header := res.header, requestID := headerGet res.header "X-Request-Id",
             url := res.requestURL } := by
  simp only [BosgoAlt.responseError]
  rw [if_neg h]
  cases res.body with
  | absent => exact ⟨[], rfl⟩
  | readFail msg => exact ⟨_, rfl⟩
  | invalid raw msg => exact ⟨_, rfl⟩
  | json raw j =>
    cases hd : BosgoAlt.decodeErrors j with
    | none =>
      exact ⟨[{ code := "unable_to_unmarshal_error_response",
                message := "received " ++ BosgoAlt.sanitizeBody raw, payload := [] }],
             by simp only [hd]⟩
    | some items => exact ⟨items, by simp only [hd, List.nil_append]⟩

/-- C10: setting a params key twice keeps only the last value, Get returns it,
and Get of a key holding no value returns the empty string. -/
theorem claim_C10 (p : params) (k v1 v2 : String) (q : params) (k2 : String) :
    params.Get (params.Set (params.Set p k v1) k v2) k = v2 ∧
    params.Set (params.Set p k v1) k v2 k = [v2] ∧
    (q k2 = [] → params.Get q k2 = "") := by
  refine ⟨?_, ?_, ?_⟩
  · simp [params.Get, params.Set]
  · simp [params.Set]
  · intro h
    simp [params.Get, h]

/-- C9: the body posted by Client.ResetPassword carries the password under the
key email and the token under the key token, and holds no key named
password. -/
theorem claim_C9 (c : Client) (p t : String) :
    (c.ResetPassword p t).sendCall.body =
      some (Json.obj [("email", Json.str p), ("token", Json.str t)]) ∧
    lookupField [("email", Json.str p), ("token", Json.str t)] "password" = none := by
  exact ⟨rfl, rfl⟩

/-- C6: the two vendored generations of responseError agree on success
classification (nil exactly on a status code whose division by 100 is 2) and,
on every non-2xx response, both return an Error carrying the status code, the
status line, the headers and the X-Request-Id header as RequestID. -/
theorem claim_C6 (res : HttpResponse) :
    (responseError (some res) = none ↔ res.statusCode / 100 = 2) ∧
    (BosgoAlt.responseError (some res) = none ↔ res.statusCode / 100 = 2) ∧
    (∀ e, responseError (some res) = some e →
      e.statusCode = res.statusCode ∧ e.status = res.status ∧
      e.header = res.header ∧ e.requestID = headerGet res.header "X-Request-Id") ∧
    (∀ e, BosgoAlt.responseError (some res) = some e →
      e.statusCode = res.statusCode ∧ e.status = res.status ∧
      e.header = res.header ∧ e.requestID = headerGet res.header "X-Request-Id") := by
  by_cases h : res.statusCode / 100 = 2
  · refine ⟨?_, ?_, ?_, ?_⟩
    · simp [responseError, h]
    · simp [BosgoAlt.responseError, h]
    · intro e he
      simp [responseError, h] at he
    · intro e he
      simp [BosgoAlt.responseError, h] at he
  · obtain ⟨items1, h1⟩ := responseError_nonsuccess res h
    obtain ⟨items2, h2⟩ := responseErrorAlt_nonsuccess res h
    refine ⟨?_, ?_, ?_, ?_⟩
    · rw [h1]
      simp [h]
    · rw [h2]
      simp [h]
    · intro e he
      rw [h1] at he
      cases he
      exact ⟨rfl, rfl, rfl, rfl⟩
    · intro e he
      rw [h2] at he
      cases he
      exact ⟨rfl, rfl, rfl, rfl⟩

/-- C5: every exchange of req.go hands at most one request to hc.Do; a request
build error, a transport error and a non-2xx status each return immediately,
and nothing is ever reissued. -/
theorem claim_C5 (r : req) (data : Option Json) (w : World) :
    ((r.get w).calls.length ≤ 1 ∧ (r.postJSON data w).calls.length ≤ 1) ∧
    (∀ msg, w r.getCall = CallOutcome.buildFail msg →
      (r.get w).result = Except.error (ClientError.build msg) ∧ (r.get w).calls = []) ∧
    (∀ msg, w r.getCall = CallOutcome.netFail msg →
      (r.get w).result = Except.error (ClientError.net msg) ∧ (r.get w).calls = [r.getCall]) ∧
    (∀ res e, w r.getCall = CallOutcome.response res → responseError (some res) = some e →
      (r.get w).result = Except.error (ClientError.api e) ∧ (r.get w).calls = [r.getCall]) ∧
    (∀ msg, w (r.postCall data) = CallOutcome.buildFail msg →
      (r.postJSON data w).result = Except.error (ClientError.build msg) ∧
      (r.postJSON data w).calls = []) ∧
    (∀ msg, w (r.postCall data) = CallOutcome.netFail msg →
      (r.postJSON data w).result = Except.error (ClientError.net msg) ∧
      (r.postJSON data w).calls = [r.postCall data]) ∧
    (∀ res e, w (r.postCall data) = CallOutcome.response res →
      responseError (some res) = some e →
      (r.postJSON data w).result = Except.error (ClientError.api e) ∧
      (r.postJSON data w).calls = [r.postCall data]) := by
  refine ⟨⟨?_, ?_⟩, ?_, ?_, ?_, ?_, ?_, ?_⟩
  · cases hw : w r.getCall <;> simp [req.get, sendHttp, hw]
  · cases hw : w (r.postCall data) <;> simp [req.postJSON, sendHttp, hw]
  · intro msg hw
    simp [req.get, sendHttp, hw]
  · intro msg hw
    simp [req.get, sendHttp, hw]
  · intro res e hw he
    simp [req.get, sendHttp, hw, he]
  · intro msg hw
    simp [req.postJSON, sendHttp, hw]
  · intro msg hw
    simp [req.postJSON, sendHttp, hw]
  · intro res e hw he
    simp [req.postJSON, sendHttp, hw, he]

end Bosgo

namespace Bosgo

/-- A concrete developer client used to exhibit the C3 counterexample. -/
def devClientC3 : DevClient :=
  NewDevClient "api.sandbox.bankrs.com" "devtok"

/-- C3 counterexample: the claim states that requests built by a DevClient
carry no x-application-id header; but the developer-session request built by
ApplicationsService.ListUsers sets exactly that header (developer.go sets
r.headers with the x-application-id key after newReq), so at this concrete
input a DevClient-built request carries x-application-id. -/
theorem claim_C3_counterexample :
    headerLookup
      ((ApplicationsService.ListUsers { client := devClientC3 } "app-77").req.headers)
      "x-application-id" = some "app-77" ∧
    headerLookup
      ((ApplicationsService.ListUsers { client := devClientC3 } "app-77").req.headers)
      "x-token" = some "devtok" := by
  exact ⟨rfl, rfl⟩

/-- C3 (amended): the header maps built by the three newReq constructors
attach exactly the headers of their level: the base Client newReq sets
neither x-token nor x-application-id, the DevClient newReq sets x-token (the
developer session token) and no x-application-id, and the UserClient newReq
sets both x-token (the user session token) and x-application-id (the
application ID).  Requests for application-scoped developer endpoints
(ApplicationsService.ListUsers) additionally set x-application-id explicitly
after newReq. -/
theorem claim_C3 (c : Client) (d : DevClient) (u : UserClient) (path : String) :
    headerLookup (c.newReq path).headers "x-token" = none ∧
    headerLookup (c.newReq path).headers "x-application-id" = none ∧
    headerLookup (d.newReq path).headers "x-token" = some d.token ∧
    headerLookup (d.newReq path).headers "x-application-id" = none ∧
    headerLookup (u.newReq path).headers "x-token" = some u.token ∧
    headerLookup (u.newReq path).headers "x-application-id" = some u.applicationID := by
  exact ⟨rfl, rfl, rfl, rfl, rfl, rfl⟩

/-- C2: a developer login that returns token t yields a DevClient that stores
t verbatim: its SessionToken is exactly t and every request header map it
subsequently builds carries x-token equal to t. -/
theorem claim_C2 (c : Client) (email password : String) (w : World)
    (res : HttpResponse) (raw : String) (j : Json) (t : String)
    (hw : w (c.Login email password).sendCall = CallOutcome.response res)
    (hok : res.statusCode / 100 = 2)
    (hbody : res.body = BodyContent.json raw j)
    (htok : decodeSessionToken j = some { token := t }) :
    ((c.Login email password).Send w).result =
      Except.ok { addr := c.addr, token := t, ua := c.ua, environment := c.environment } ∧
    DevClient.SessionToken
      { addr := c.addr, token := t, ua := c.ua, environment := c.environment } = t ∧
    ∀ path, headerLookup
      (DevClient.newReq
        { addr := c.addr, token := t, ua := c.ua, environment := c.environment } path).headers
      "x-token" = some t := by
  refine ⟨?_, rfl, fun path => rfl⟩
  have hw' : w ((c.Login email password).req.postCall
      (some (encodeDeveloperCredentials (c.Login email password).data))) =
      CallOutcome.response res := hw
  simp only [Client.Login] at hw'
  simp [DeveloperLoginReq.Send, req.postJSON, sendHttp, hw', responseError, hok,
        SendResult.decodeBody, hbody, htok, Client.Login, NewDevClient, Except.map]

/-- A concrete base client for the C2 witness. -/
def clientC2 : Client :=
  { addr := "api.sandbox.bankrs.com" }

/-- The login response body of the C2 witness. -/
def loginBodyC2 : Json :=
  Json.obj [("token", Json.str "tok-1")]

/-- The login response of the C2 witness. -/
def resC2 : HttpResponse :=
  { statusCode := 200, status := "200 OK", header := [],
    body := BodyContent.json "raw" loginBodyC2, requestURL := "" }

/-- A world answering every call with the C2 login response. -/
def worldC2 : World :=
  fun _ => CallOutcome.response resC2

theorem claim_C2_witness :
    ((clientC2.Login "dev@example.com" "pw").Send worldC2).result =
      Except.ok { addr := clientC2.addr, token := "tok-1", ua := clientC2.ua,
                  environment := clientC2.environment } ∧
    DevClient.SessionToken
      { addr := clientC2.addr, token := "tok-1", ua := clientC2.ua,
        environment := clientC2.environment } = "tok-1" ∧
    ∀ path, headerLookup
      (DevClient.newReq
        { addr := clientC2.addr, token := "tok-1", ua := clientC2.ua,
          environment := clientC2.environment } path).headers
      "x-token" = some "tok-1" :=
  claim_C2 clientC2 "dev@example.com" "pw" worldC2 resC2 "raw" loginBodyC2 "tok-1"
    rfl rfl rfl rfl

/-- C4: challenge answers are appended in the order given by the builder
methods, and the serialization writes the id, value and store fields of every
answer unmodified (the encoding is injective: no information is altered or
lost), with the job answer body holding exactly the answers in order. -/
theorem claim_C4 (r0 : AddAccessReq) (a0 : JobAnswerReq)
    (ans : List ChallengeAnswer) (a b : ChallengeAnswer) :
    (ans.foldl AddAccessReq.ChallengeAnswer r0).answers = r0.answers ++ ans ∧
    (ans.foldl JobAnswerReq.ChallengeAnswer a0).answers = a0.answers ++ ans ∧
    encodeChallengeAnswer a =
      Json.obj [("id", Json.str a.id), ("value", Json.str a.value),
                ("store", Json.bool a.store)] ∧
    (encodeChallengeAnswer a = encodeChallengeAnswer b → a = b) ∧
    (ans.foldl JobAnswerReq.ChallengeAnswer a0).sendBody =
      Json.obj [("challenge_answers",
                 Json.arr ((a0.answers ++ ans).map encodeChallengeAnswer))] := by
  refine ⟨(addAccess_foldl r0 ans).1, (jobAnswer_foldl a0 ans).1, rfl, ?_, ?_⟩
  · intro h
    simp only [encodeChallengeAnswer, Json.obj.injEq, List.cons.injEq, Prod.mk.injEq,
      Json.str.injEq, Json.bool.injEq, and_true, true_and] at h
    cases a
    cases b
    simp_all
  · have h := (jobAnswer_foldl a0 ans).1
    simp [JobAnswerReq.sendBody, encodeChallengeAnswerList, h]

end Bosgo

namespace Bosgo

/-- C8: a negative page limit is rejected with the fixed error message before
any HTTP exchange; a zero limit issues a body-less get; a positive limit posts
the cursor and limit page parameters as the JSON body. -/
theorem claim_C8 (r : ListDevUsersReq) (w : World) :
    (r.data.limit < 0 →
      (r.Send w).result = Except.error (ClientError.message "limit must be non-negative") ∧
      (r.Send w).calls = []) ∧
    (r.data.limit = 0 →
      r.req.getCall.method = Method.get ∧ r.req.getCall.body = none ∧
      ∀ res, w r.req.getCall = CallOutcome.response res →
        (r.Send w).calls = [r.req.getCall]) ∧
    (0 < r.data.limit →
      (r.req.postCall (some (encodePageParams r.data))).method = Method.post ∧
      (r.req.postCall (some (encodePageParams r.data))).body =
        some (Json.obj [("cursor", Json.str r.data.cursor),
                        ("limit", Json.num r.data.limit)]) ∧
      ∀ res, w (r.req.postCall (some (encodePageParams r.data))) = CallOutcome.response res →
        (r.Send w).calls = [r.req.postCall (some (encodePageParams r.data))]) := by
  refine ⟨?_, ?_, ?_⟩
  · intro h
    constructor <;> simp [ListDevUsersReq.Send, h]
  · intro h
    have hnlt : ¬ r.data.limit < 0 := by omega
    refine ⟨rfl, rfl, ?_⟩
    intro res hres
    simp [ListDevUsersReq.Send, h, hnlt, req.get, sendHttp, hres, SendResult.decodeBody]
  · intro h
    have hnlt : ¬ r.data.limit < 0 := by omega
    have hne : ¬ r.data.limit = 0 := by omega
    refine ⟨rfl, rfl, ?_⟩
    intro res hres
    simp [ListDevUsersReq.Send, hne, hnlt, req.postJSON, sendHttp, hres,
          SendResult.decodeBody]

/-- C7: for the cited operations the two-phase structure holds: Client.Login
and AccessesService.List only construct the request object (path, data, the
call to be issued) and Send alone touches the transport, at most once, and on
a successful response decodes the JSON body into the typed result. -/
theorem claim_C7 (c : Client) (email password : String) (a : AccessesService) (w : World) :
    ((c.Login email password).req.path = apiV1 ++ "/developers/login" ∧
     (c.Login email password).data = { email := email, password := password } ∧
     (c.Login email password).sendCall.method = Method.post ∧
     (c.Login email password).sendCall.body =
       some (Json.obj [("email", Json.str email), ("password", Json.str password)]) ∧
     ((c.Login email password).Send w).calls.length ≤ 1 ∧
     (∀ res, w (c.Login email password).sendCall = CallOutcome.response res →
       ((c.Login email password).Send w).calls = [(c.Login email password).sendCall]) ∧
     (∀ res raw j t, w (c.Login email password).sendCall = CallOutcome.response res →
       res.statusCode / 100 = 2 → res.body = BodyContent.json raw j →
       decodeSessionToken j = some { token := t } →
       ((c.Login email password).Send w).result =
         Except.ok { addr := c.addr, token := t, ua := c.ua,
                     environment := c.environment })) ∧
    (a.List.req.path = apiV1 ++ "/accesses" ∧
     a.List.req.getCall.method = Method.get ∧
     a.List.req.getCall.body = none ∧
     (a.List.Send w).calls.length ≤ 1 ∧
     (∀ res raw j l, w a.List.req.getCall = CallOutcome.response res →
       res.statusCode / 100 = 2 → res.body = BodyContent.json raw j →
       decodeBankAccessList j = some l →
       (a.List.Send w).result = Except.ok { accesses := l })) := by
  refine ⟨⟨rfl, rfl, rfl, rfl, ?_, ?_, ?_⟩, rfl, rfl, rfl, ?_, ?_⟩
  · cases hw : w ((c.Login email password).req.postCall
        (some (encodeDeveloperCredentials (c.Login email password).data))) <;>
      simp [DeveloperLoginReq.Send, req.postJSON, sendHttp, hw, SendResult.decodeBody]
  · intro res hw
    have hw' : w ((c.Login email password).req.postCall
        (some (encodeDeveloperCredentials (c.Login email password).data))) =
        CallOutcome.response res := hw
    simp [DeveloperLoginReq.Send, req.postJSON, sendHttp, hw', SendResult.decodeBody,
          DeveloperLoginReq.sendCall]
  · intro res raw j t hw hok hbody htok
    have hw' : w ((c.Login email password).req.postCall
        (some (encodeDeveloperCredentials (c.Login email password).data))) =
        CallOutcome.response res := hw
    simp only [Client.Login] at hw'
    simp [DeveloperLoginReq.Send, req.postJSON, sendHttp, hw', responseError, hok,
          SendResult.decodeBody, hbody, htok, Client.Login, NewDevClient, Except.map]
  · cases hw : w a.List.req.getCall <;>
      simp [ListAccessesReq.Send, req.get, sendHttp, hw, SendResult.decodeBody]
  · intro res raw j l hw hok hbody hlist
    simp [ListAccessesReq.Send, req.get, sendHttp, hw, responseError, hok,
          SendResult.decodeBody, hbody, hlist, Except.map]

/-- The AddAccessReq obtained from AccessesService.Add after adding each
challenge answer through the builder. -/
def builtAddAccess (u : UserClient) (pid : String) (ans : List ChallengeAnswer) :
    AddAccessReq :=
  ans.foldl AddAccessReq.ChallengeAnswer ((NewAccessesService u).Add pid)

/-- The JobAnswerReq obtained from JobsService.Answer after adding each
challenge answer through the builder. -/
def builtJobAnswer (u : UserClient) (uri : String) (ans : List ChallengeAnswer) :
    JobAnswerReq :=
  ans.foldl JobAnswerReq.ChallengeAnswer ((NewJobsService u).Answer uri)

/-- C1: AccessesService.Add(providerID).Send posts to /v1/accesses a JSON body
carrying provider_id and challenge_answers and decodes the response into a Job
identified by its uri field; JobsService.Get(u).Send gets the path /v1 ++ u
and decodes the response into a JobStatus; JobsService.Answer(u).Send puts to
/v1 ++ u a JSON body mapping challenge_answers to the answers added. -/
theorem claim_C1 (u : UserClient) (pid : String) (ans : List ChallengeAnswer)
    (uri : String) (w : World) :
    ((builtAddAccess u pid ans).sendCall.method = Method.post ∧
     (builtAddAccess u pid ans).sendCall.path = apiV1 ++ "/accesses" ∧
     (builtAddAccess u pid ans).sendCall.body =
       some (Json.obj [("provider_id", Json.str pid),
                       ("challenge_answers",
                        Json.arr (ans.map encodeChallengeAnswer))]) ∧
     (∀ res raw j jb,
       w (builtAddAccess u pid ans).sendCall = CallOutcome.response res →
       res.statusCode / 100 = 2 → res.body = BodyContent.json raw j →
       decodeJob j = some jb →
       ((builtAddAccess u pid ans).Send w).result = Except.ok jb ∧
       ((builtAddAccess u pid ans).Send w).calls = [(builtAddAccess u pid ans).sendCall]) ∧
     (∀ fields s, lookupField fields "uri" = some (Json.str s) →
       decodeJob (Json.obj fields) = some { uri := s })) ∧
    (((NewJobsService u).Get uri).req.getCall.method = Method.get ∧
     ((NewJobsService u).Get uri).req.getCall.path = "/v1" ++ uri ∧
     ((NewJobsService u).Get uri).req.getCall.body = none ∧
     (∀ res raw j st,
       w ((NewJobsService u).Get uri).req.getCall = CallOutcome.response res →
       res.statusCode / 100 = 2 → res.body = BodyContent.json raw j →
       decodeJobStatus j = some st →
       (((NewJobsService u).Get uri).Send w).result = Except.ok st)) ∧
    ((builtJobAnswer u uri ans).sendCall.method = Method.put ∧
     (builtJobAnswer u uri ans).sendCall.path = "/v1" ++ uri ∧
     (builtJobAnswer u uri ans).sendCall.body =
       some (Json.obj [("challenge_answers",
                        Json.arr (ans.map encodeChallengeAnswer))])) := by
  obtain ⟨hansw, hreq, hpid⟩ := addAccess_foldl ((NewAccessesService u).Add pid) ans
  obtain ⟨hansw2, hreq2⟩ := jobAnswer_foldl ((NewJobsService u).Answer uri) ans
  refine ⟨⟨rfl, ?_, ?_, ?_, ?_⟩, ⟨rfl, rfl, rfl, ?_⟩, rfl, ?_, ?_⟩
  · simp only [builtAddAccess, AddAccessReq.sendCall, req.postCall]
    rw [hreq]
    rfl
  · simp only [builtAddAccess, AddAccessReq.sendCall, req.postCall,
               AddAccessReq.sendBody, encodeChallengeAnswerList]
    rw [hpid, hansw]
    simp [AccessesService.Add]
  · intro res raw j jb hw hok hbody hjob
    have hw' : w ((builtAddAccess u pid ans).req.postCall
        (some (builtAddAccess u pid ans).sendBody)) = CallOutcome.response res := hw
    constructor
    · simp [AddAccessReq.Send, req.postJSON, sendHttp, hw', responseError, hok,
            SendResult.decodeBody, hbody, hjob]
    · simp [AddAccessReq.Send, req.postJSON, sendHttp, hw', SendResult.decodeBody,
            AddAccessReq.sendCall]
  · intro fields s hs
    simp [decodeJob, decodeStrField, hs]
  · intro res raw j st hw hok hbody hst
    simp [JobGetReq.Send, req.get, sendHttp, hw, responseError, hok,
          SendResult.decodeBody, hbody, hst]
  · simp only [builtJobAnswer, JobAnswerReq.sendCall, req.putCall]
    rw [hreq2]
    rfl
  · simp only [builtJobAnswer, JobAnswerReq.sendCall, req.putCall,
               JobAnswerReq.sendBody, encodeChallengeAnswerList]
    rw [hansw2]
    simp [JobsService.Answer]

end Bosgo
